import Mathlib

/-!
Verification of the order-management persistence core.

The Go sources are shallowly embedded:
  * `retryutil.RetryWithBackoff` (the spec's `RetryPolicy.Execute`) becomes a
    structurally recursive function over an explicit invocation oracle
    `op : Nat → Option String` (the error message returned by the n-th call,
    `none` meaning success) and a context model telling whether cancellation
    fires during a given backoff sleep.  Durations and the float64 backoff
    factor are modelled exactly as rationals (nanoseconds).
  * the Postgres repository's transactional order creation becomes explicit
    state passing over a database snapshot, with an environment choosing which
    of begin / insert / commit steps fail and which ids the database generates;
    a transaction buffers its writes and publishes them only on commit,
    matching SQL transaction semantics relied on via `defer tx.Rollback()`.
  * the domain entity constructors and the pagination arithmetic become pure
    functions; float64 money amounts are modelled exactly as rationals.
-/

namespace OrderSys

/-! ### Substring matching, mirroring Go `strings.Contains` -/

/-- `charsHavePrefix n h` is true when `n` is a prefix of `h`
(character-list version of Go's prefix test used below). -/
def charsHavePrefix : List Char → List Char → Bool
  | [], _ => true
  | _ :: _, [] => false
  | a :: as, b :: bs => a == b && charsHavePrefix as bs

/-- `charsContain n h` is true when `n` occurs contiguously inside `h`;
this is Go's `strings.Contains(h, n)` on the character level. -/
def charsContain (needle : List Char) : List Char → Bool
  | [] => charsHavePrefix needle []
  | c :: rest => charsHavePrefix needle (c :: rest) || charsContain needle rest

/-- Go `strings.Contains(hay, needle)`. -/
def strContains (hay needle : String) : Bool :=
  charsContain needle.data hay.data

/-- `retryutil.IsConnectionError`: an error (modelled as its message, `none`
standing for Go's `nil`) is a transient-connection error when its message
contains one of the five connection-failure fragments. -/
def isConnectionError : Option String → Bool
  | none => false
  | some msg =>
    strContains msg "too many clients already" ||
    strContains msg "connection refused" ||
    strContains msg "connection reset" ||
    strContains msg "server closed the connection unexpectedly" ||
    strContains msg "no connection to the server"

/-! ### RetryPolicy (`retryutil.RetryConfig` / `RetryWithBackoff`) -/

/-- `retryutil.RetryConfig`.  `maxRetries` is a Go `int` (may be negative),
delays are in nanoseconds (`time.Duration`), the float64 `BackoffFactor` is
modelled exactly as a rational, and `retryCondition` is `none` when the Go
field `RetryCondition` is `nil`. -/
structure RetryConfig where
  maxRetries : Int
  baseDelay : Rat
  maxDelay : Rat
  backoffFactor : Rat
  retryCondition : Option (String → Bool)

/-- The default configuration `retryutil.DefaultRetryConfig()`:
3 attempts, 10ms base delay, 500ms max delay, factor 2.0, retry on
connection errors. -/
def defaultRetryConfig : RetryConfig :=
  { maxRetries := 3
    baseDelay := 10000000
    maxDelay := 500000000
    backoffFactor := 2
    retryCondition := some (fun e => isConnectionError (some e)) }

/-- The backoff computed at the top of the loop body of `RetryWithBackoff`
for the upcoming attempt index: `baseDelay * (backoffFactor * attempt)`,
capped at `maxDelay`. -/
def backoffDuration (cfg : RetryConfig) (attempt : Nat) : Rat :=
  let backoff := cfg.baseDelay * (cfg.backoffFactor * (attempt : Rat))
  if backoff > cfg.maxDelay then cfg.maxDelay else backoff

/-- The wrapped errors `RetryWithBackoff` can return. -/
inductive RetryError where
  /-- `"retry cancelled: %w"` wrapping `ctx.Err()`. -/
  | retryCancelled (cause : String)
  /-- `"retry condition not met: %w"` wrapping the failed attempt's error. -/
  | retryConditionNotMet (cause : String)
  /-- `"max retries (%d) exceeded: %w"` wrapping the last error
  (`none` when no attempt ever ran, i.e. Go wraps a nil error). -/
  | maxRetriesExceeded (declared : Int) (last : Option String)
  deriving DecidableEq, Repr

/-- Cancellable context: `cancelDuringSleep i` tells whether `ctx.Done()`
fires during the backoff sleep preceding attempt `i`; `errMsg` is the
message of `ctx.Err()`. -/
structure Ctx where
  cancelDuringSleep : Nat → Bool
  errMsg : String

/-- Observable outcome of a `RetryWithBackoff` run: the returned error
(`none` = Go `nil`), how many times `fn` was invoked, and the completed
backoff sleeps in order. -/
structure RetryOutcome where
  err : Option RetryError
  calls : Nat
  sleeps : List Rat
  deriving DecidableEq, Repr

/-- The loop of `retryutil.RetryWithBackoff`, one constructor case per exit
path: `remaining` counts loop iterations still allowed (`maxRetries - attempt`),
`attempt` is the loop variable, `lastErr` the variable of the same name. -/
def retryAux (cfg : RetryConfig) (ctx : Ctx) (op : Nat → Option String) :
    Nat → Nat → Option String → RetryOutcome
  | 0, _, lastErr =>
    { err := some (.maxRetriesExceeded cfg.maxRetries lastErr), calls := 0, sleeps := [] }
  | remaining + 1, attempt, _ =>
    if 0 < attempt ∧ ctx.cancelDuringSleep attempt then
      { err := some (.retryCancelled ctx.errMsg), calls := 0, sleeps := [] }
    else
      let slept : List Rat := if attempt = 0 then [] else [backoffDuration cfg attempt]
      match op attempt with
      | none => { err := none, calls := 1, sleeps := slept }
      | some e =>
        let shouldRetry :=
          match cfg.retryCondition with
          | some cond => cond e
          | none => true
        if shouldRetry then
          let rest := retryAux cfg ctx op remaining (attempt + 1) (some e)
          { err := rest.err, calls := rest.calls + 1, sleeps := slept ++ rest.sleeps }
        else
          { err := some (.retryConditionNotMet e), calls := 1, sleeps := slept }

/-- `retryutil.RetryWithBackoff ctx cfg fn`: run the loop from attempt 0.
A negative `MaxRetries` runs the loop zero times, as in Go. -/
def RetryWithBackoff (cfg : RetryConfig) (ctx : Ctx) (op : Nat → Option String) :
    RetryOutcome :=
  retryAux cfg ctx op cfg.maxRetries.toNat 0 none

/-- A context that never cancels. -/
def quietCtx : Ctx := { cancelDuringSleep := fun _ => false, errMsg := "context canceled" }

/-- A retry configuration for order creation: `MaxRetries = 3`, arbitrary
delays and factor, retrying exactly on transient-connection errors. -/
def connRetryConfig (base maxD factor : Rat) : RetryConfig :=
  { maxRetries := 3
    baseDelay := base
    maxDelay := maxD
    backoffFactor := factor
    retryCondition := some (fun e => isConnectionError (some e)) }

/-- A context whose cancellation fires during the sleep preceding attempt 1. -/
def cancelAtOneCtx : Ctx :=
  { cancelDuringSleep := fun i => decide (i = 1), errMsg := "context canceled" }

/-! ### Domain entities (`internal/domain/entity`) -/

/-- `entity.OrderItem`: money amounts (float64 in Go) are modelled exactly as
rationals, `Quantity` is a Go `int`. -/
structure OrderItem where
  id : Int
  orderId : Int
  productName : String
  quantity : Int
  unitPrice : Rat
  totalPrice : Rat
  deriving DecidableEq, Repr

/-- `entity.Order`: timestamps (`time.Time`) are modelled as microseconds
since the epoch. -/
structure Order where
  id : Int
  customerName : String
  status : String
  totalAmount : Rat
  items : List OrderItem
  createdAt : Nat
  updatedAt : Nat
  deriving DecidableEq, Repr

/-- `entity.ValidStatuses`. -/
def validStatuses : List String := ["pending", "processing", "completed", "cancelled"]

/-- `entity.isValidStatus`: linear scan over `ValidStatuses`. -/
def isValidStatus (status : String) : Bool :=
  validStatuses.contains status

/-- The item-validation loop inside `entity.NewOrder`: walks the items in
order, rejecting a non-positive quantity or negative unit price, overwriting
each item's `TotalPrice` with `quantity * unitPrice` and accumulating the
running `totalAmount`. -/
def processItems (acc : Rat) : List OrderItem → Except String (List OrderItem × Rat)
  | [] => .ok ([], acc)
  | item :: rest =>
    if item.quantity ≤ 0 then .error "item quantity must be greater than 0"
    else if item.unitPrice < 0 then .error "item unit price cannot be negative"
    else
      let updated := { item with totalPrice := (item.quantity : Rat) * item.unitPrice }
      match processItems (acc + updated.totalPrice) rest with
      | .error e => .error e
      | .ok (others, total) => .ok (updated :: others, total)

/-- `entity.NewOrder` (the variant without a product-name check): validate,
compute totals, and build a `pending` order stamped with the current time
(`now`, standing for `time.Now()`). -/
def NewOrder (customerName : String) (items : List OrderItem) (now : Nat) :
    Except String Order :=
  if customerName = "" then .error "customer name is required"
  else if items.length = 0 then .error "order must have at least one item"
  else
    match processItems 0 items with
    | .error e => .error e
    | .ok (its, total) =>
      .ok { id := 0, customerName := customerName, status := "pending",
            totalAmount := total, items := its, createdAt := now, updatedAt := now }

/-- `entity.Order.UpdateStatus`: validate the status against the enum; on
success mutate status and `UpdatedAt`, on failure return the error leaving
the order untouched.  The pair is (returned error, receiver after the call). -/
def updateStatus (o : Order) (status : String) (now : Nat) : Option String × Order :=
  if !(isValidStatus status) then (some "invalid order status", o)
  else (none, { o with status := status, updatedAt := now })

/-- An item of `usecase.CreateOrderRequest`: the caller can supply only
product name, quantity and unit price (no id or total field exists). -/
structure CreateOrderItemRequest where
  productName : String
  quantity : Int
  unitPrice : Rat
  deriving DecidableEq, Repr

/-- The request-to-entity conversion inside `CreateOrderUseCase.Execute`:
ids and totals start at zero. -/
def requestItems (reqItems : List CreateOrderItemRequest) : List OrderItem :=
  reqItems.map fun it =>
    { id := 0, orderId := 0, productName := it.productName,
      quantity := it.quantity, unitPrice := it.unitPrice, totalPrice := 0 }

/-! ### The Postgres repository: transactional creation
(`postgres_order_repository.go`, `createOrderWithItemsInternal`)

A transaction buffers its inserts and publishes them atomically on commit;
`defer tx.Rollback()` discards the buffer on every non-commit exit path.
The environment `TxEnv` decides which database steps fail and which ids the
database generates (`RETURNING id`). -/

/-- A persisted row of the `orders` table (the order header). -/
structure OrderHeaderRow where
  id : Int
  customerName : String
  totalAmount : Rat
  status : String
  createdAt : Nat
  updatedAt : Nat
  deriving DecidableEq, Repr

/-- The persisted database state: the `orders` and `order_items` tables. -/
structure DBState where
  orderRows : List OrderHeaderRow
  itemRows : List OrderItem
  deriving DecidableEq, Repr

/-- Failure/id oracle for one transactional attempt: whether `BeginTx`, the
header insert, the i-th item insert and `Commit` succeed, and the generated
ids. -/
structure TxEnv where
  beginOk : Bool
  orderInsertOk : Bool
  itemInsertOk : Nat → Bool
  commitOk : Bool
  genOrderId : Int
  genItemId : Nat → Int

/-- The item-insert loop of `createOrderWithItemsInternal`: each iteration
runs the `INSERT ... RETURNING id` for item `i` inside the transaction and
rebuilds the item with its generated id and the captured order id. -/
def insertItems (env : TxEnv) (orderID : Int) :
    List OrderItem → Nat → Except String (List OrderItem)
  | [], _ => .ok []
  | item :: rest, i =>
    if !env.itemInsertOk i then .error "failed to insert order item"
    else
      match insertItems env orderID rest (i + 1) with
      | .error e => .error e
      | .ok others =>
        .ok ({ id := env.genItemId i, orderId := orderID,
               productName := item.productName, quantity := item.quantity,
               unitPrice := item.unitPrice, totalPrice := item.totalPrice } :: others)

/-- `createOrderWithItemsInternal`: begin a transaction, insert the header,
insert every item, commit; on any failure the rollback leaves the persisted
state untouched.  Returns (result, state after the call). -/
def createOrderWithItemsInternal (env : TxEnv) (st : DBState) (order : Order) :
    Except String Order × DBState :=
  if !env.beginOk then (.error "failed to begin transaction", st)
  else if !env.orderInsertOk then (.error "failed to insert order", st)
  else
    let orderID := env.genOrderId
    let headerRow : OrderHeaderRow :=
      { id := orderID, customerName := order.customerName,
        totalAmount := order.totalAmount, status := order.status,
        createdAt := order.createdAt, updatedAt := order.updatedAt }
    match insertItems env orderID order.items 0 with
    | .error e => (.error e, st)
    | .ok newItems =>
      if !env.commitOk then (.error "failed to commit transaction", st)
      else
        (.ok { id := orderID, customerName := order.customerName,
               totalAmount := order.totalAmount, status := order.status,
               items := newItems, createdAt := order.createdAt,
               updatedAt := order.updatedAt },
         { orderRows := st.orderRows ++ [headerRow],
           itemRows := st.itemRows ++ newItems })

/-- The caller-visible payload of an item: the fields that are neither
generated by the database nor overwritten during creation. -/
def itemPayload (it : OrderItem) : String × Int × Rat × Rat :=
  (it.productName, it.quantity, it.unitPrice, it.totalPrice)

/-! ### Page-based pagination arithmetic (`ListOrders(ctx, page, limit)`) -/

/-- `repository.PaginationInfo`. -/
structure PaginationInfo where
  currentPage : Int
  totalPages : Int
  totalCount : Int
  itemsPerPage : Int
  deriving DecidableEq, Repr

/-- The pagination metadata computed by the page-based `ListOrders`: clamp
`page` below by 1, ceiling-divide using Go's truncating integer division
`(totalCount + limit - 1) / limit`, and lift a zero `totalPages` to 1. -/
def paginationInfoOf (page limit totalCount : Int) : PaginationInfo :=
  let page := if page < 1 then 1 else page
  let totalPages0 := Int.tdiv (totalCount + limit - 1) limit
  let totalPages := if totalPages0 = 0 then 1 else totalPages0
  { currentPage := page, totalPages := totalPages,
    totalCount := totalCount, itemsPerPage := limit }

/-! ### GetOrderUseCase (`internal/usecase/order/get_order.go`) -/

/-- The error kinds `GetOrderUseCase.Execute` can surface: its own
invalid-operation guard error, or whatever the repository returned. -/
inductive AppError where
  | invalidOperation (msg : String)
  | repoError (msg : String)
  deriving DecidableEq, Repr

/-- `GetOrderUseCase.Execute`: reject non-positive ids before touching the
repository, otherwise delegate.  The second component counts how many times
the repository's `GetOrderByID` was invoked during the call. -/
def getOrderExecute (repo : Int → Except AppError Order) (id : Int) :
    Except AppError Order × Nat :=
  if id ≤ 0 then
    (.error (.invalidOperation "order ID must be greater than 0"), 0)
  else
    (repo id, 1)

/-! ### Cursor-based pagination (`part_012`'s `ListOrders(ctx, limit, cursor)`)

The SQL tuple comparison `(created_at, id) < ($1, $2)` is lexicographic and
`ORDER BY created_at DESC, id DESC` sorts by the same key descending.
`created_at` is a Postgres timestamp with sub-second precision, modelled as
microseconds since the epoch.  The cursor string `"<RFC3339>_<id>"` is
modelled by the data it carries: Go's `Format(time.RFC3339)` truncates the
timestamp to whole seconds, and parsing the cursor yields that whole-second
timestamp back. -/

/-- The pagination sort key of a row: `(created_at, id)`. -/
def rowKey (r : OrderHeaderRow) : Nat × Int := (r.createdAt, r.id)

/-- Lexicographic strict comparison on `(created_at, id)` keys, as computed
by the SQL row comparison `(created_at, id) < ($1, $2)`. -/
def keyLtb (a b : Nat × Int) : Bool :=
  decide (a.1 < b.1) || (decide (a.1 = b.1) && decide (a.2 < b.2))

/-- The `ORDER BY created_at DESC, id DESC` relation: `a` sorts no later
than `b` when `a`'s key is not below `b`'s. -/
def rowGe (a b : OrderHeaderRow) : Prop := keyLtb (rowKey a) (rowKey b) = false

instance : DecidableRel rowGe := fun a b => by unfold rowGe; infer_instance

/-- The content of the cursor string `"<RFC3339 timestamp>_<id>"`: the
whole-second timestamp printed by `Format(time.RFC3339)` (which drops any
sub-second fraction) and the row id. -/
structure Cursor where
  sec : Nat
  id : Int
  deriving DecidableEq, Repr

/-- Building `nextCursor` from the last returned row:
`fmt.Sprintf("%s_%d", lastOrder.CreatedAt.Format(time.RFC3339), lastOrder.ID)`.
The division truncates the microsecond timestamp to whole seconds. -/
def formatCursor (r : OrderHeaderRow) : Cursor :=
  { sec := r.createdAt / 1000000, id := r.id }

/-- Parsing a cursor back into the `(created_at, id)` tuple used by the
query: the RFC3339 text denotes a whole-second instant. -/
def parseCursor (c : Cursor) : Nat × Int := (c.sec * 1000000, c.id)

/-- The order in which the database returns rows for the listing query:
sorted by `(created_at DESC, id DESC)`. -/
def sortDesc (table : List OrderHeaderRow) : List OrderHeaderRow :=
  table.insertionSort rowGe

/-- The cursor-based `ListOrders`: sort descending, keep only the rows
strictly below the cursor tuple when a cursor is given, return the first
`limit` rows, and build `nextCursor` from the last returned row (empty when
no row was returned). -/
def listOrdersCursor (table : List OrderHeaderRow) (limit : Nat)
    (cursor : Option Cursor) : List OrderHeaderRow × Option Cursor :=
  let sorted := sortDesc table
  let filtered :=
    match cursor with
    | none => sorted
    | some c => sorted.filter (fun r => keyLtb (rowKey r) (parseCursor c))
  let page := filtered.take limit
  (page,
   match page.getLast? with
   | none => none
   | some lastRow => some (formatCursor lastRow))

/-- The client protocol of the claim: call `ListOrders`, follow `nextCursor`,
stop at the first empty page (`fuel` bounds the number of round trips). -/
def cursorWalk (table : List OrderHeaderRow) (limit : Nat) :
    Nat → Option Cursor → List OrderHeaderRow
  | 0, _ => []
  | fuel + 1, cursor =>
    match listOrdersCursor table limit cursor with
    | (page, next) =>
      if page.isEmpty then []
      else
        match next with
        | none => page
        | some c => page ++ cursorWalk table limit fuel (some c)

/-- Strict descending adjacency: `a` sorts strictly before `b` when `b`'s
key is strictly below `a`'s. -/
def rowGt (a b : OrderHeaderRow) : Prop := keyLtb (rowKey b) (rowKey a) = true

/-- The rows a `ListOrders` call with the given cursor ranges over, in
database order: the full sorted table for the empty cursor, otherwise only
the rows strictly below the parsed cursor tuple. -/
def remainingRows (table : List OrderHeaderRow) : Option Cursor → List OrderHeaderRow
  | none => sortDesc table
  | some c => (sortDesc table).filter (fun r => keyLtb (rowKey r) (parseCursor c))

/-- Two rows created within the same wall-clock second (1.5s and 1.4s after
the epoch), with distinct ids. -/
def subsecRowA : OrderHeaderRow :=
  { id := 2, customerName := "a", totalAmount := 1, status := "pending",
    createdAt := 1500000, updatedAt := 1500000 }

/-- See `subsecRowA`. -/
def subsecRowB : OrderHeaderRow :=
  { id := 1, customerName := "b", totalAmount := 1, status := "pending",
    createdAt := 1400000, updatedAt := 1400000 }

/-- A snapshot holding the two same-second rows. -/
def subsecTable : List OrderHeaderRow := [subsecRowA, subsecRowB]

/-! ### Helper lemmas about the retry loop -/

lemma retryAux_sleeps (cfg : RetryConfig) (ctx : Ctx) (op : Nat → Option String) :
    ∀ (r a : Nat) (lastErr : Option String), 1 ≤ a →
      (retryAux cfg ctx op r a lastErr).sleeps
        = (List.range' a (retryAux cfg ctx op r a lastErr).calls).map (backoffDuration cfg) := by
  intro r
  induction r with
  | zero => intro a lastErr _; simp [retryAux]
  | succ r ih =>
    intro a lastErr ha
    rw [retryAux]
    by_cases hc : 0 < a ∧ ctx.cancelDuringSleep a
    · simp [hc]
    · simp only [if_neg hc]
      have ha0 : ¬ a = 0 := by omega
      cases hop : op a with
      | none => simp [ha0, List.range'_one]
      | some e =>
        cases hcond : cfg.retryCondition with
        | none =>
          simp only [ha0, if_false, hcond]
          simp [ih (a + 1) (some e) (by omega), List.range'_succ]
        | some cond =>
          by_cases hr : cond e
          · simp only [ha0, if_false, hcond, hr, if_true]
            simp [ih (a + 1) (some e) (by omega), List.range'_succ]
          · simp [ha0, hcond, hr, List.range'_one]

lemma RetryWithBackoff_sleeps_eq (cfg : RetryConfig) (ctx : Ctx) (op : Nat → Option String) :
    (RetryWithBackoff cfg ctx op).sleeps
      = (List.range' 1 ((RetryWithBackoff cfg ctx op).calls - 1)).map (backoffDuration cfg) := by
  rw [RetryWithBackoff]
  cases hr : cfg.maxRetries.toNat with
  | zero => simp [retryAux]
  | succ r =>
    rw [retryAux]
    simp only [show ¬ (0 < 0 ∧ ctx.cancelDuringSleep 0) by simp, if_neg, if_true]
    cases hop : op 0 with
    | none => simp
    | some e =>
      cases hcond : cfg.retryCondition with
      | none =>
        simp [retryAux_sleeps cfg ctx op r 1 (some e) le_rfl]
      | some cond =>
        by_cases hcnd : cond e
        · simp [hcnd, retryAux_sleeps cfg ctx op r 1 (some e) le_rfl]
        · simp [hcnd]

lemma retryAux_cancel (cfg : RetryConfig) (ctx : Ctx) (op : Nat → Option String)
    (cond : String → Bool) (hc : cfg.retryCondition = some cond)
    (k : Nat) (hk1 : 1 ≤ k) (hk : ctx.cancelDuringSleep k = true)
    (hprev : ∀ j, j < k → ctx.cancelDuringSleep j = false)
    (hop : ∀ j, j < k → ∃ e, op j = some e ∧ cond e = true) :
    ∀ (d a r : Nat) (lastErr : Option String), a + d = k → d < r →
      (retryAux cfg ctx op r a lastErr).err = some (.retryCancelled ctx.errMsg) ∧
      (retryAux cfg ctx op r a lastErr).calls = d := by
  intro d
  induction d with
  | zero =>
    intro a r lastErr hak hdr
    obtain ⟨r', rfl⟩ : ∃ r', r = r' + 1 := ⟨r - 1, by omega⟩
    rw [retryAux]
    have : 0 < a ∧ ctx.cancelDuringSleep a := by
      constructor
      · omega
      · rw [show a = k by omega]; exact hk
    simp [this]
  | succ d ih =>
    intro a r lastErr hak hdr
    obtain ⟨r', rfl⟩ : ∃ r', r = r' + 1 := ⟨r - 1, by omega⟩
    rw [retryAux]
    have hguard : ¬ (0 < a ∧ ctx.cancelDuringSleep a) := by
      rintro ⟨_, hcan⟩
      rw [hprev a (by omega)] at hcan
      exact Bool.false_ne_true hcan
    simp only [if_neg hguard]
    obtain ⟨e, hope, hconde⟩ := hop a (by omega)
    rw [hope, hc]
    simp only [hconde, if_true]
    have := ih (a + 1) r' (some e) (by omega) (by omega)
    simp [this.1, this.2]

/-! ### Claim theorems about the retry policy -/

/-- C4: with `maxRetries = 3` and the transient-connection retry predicate:
an operation failing every time with a retryable error is invoked exactly 3
times and the call returns "max retries exceeded" wrapping the last failure;
a first non-retryable failure means exactly one invocation and an immediate
"retry condition not met" wrapping of the original error; a successful
invocation stops the loop with a nil error. -/
theorem retry_execute_attempt_counts :
    (∀ (base maxD factor : Rat) (op : Nat → Option String),
      (∀ n, ∃ e, op n = some e ∧ isConnectionError (some e) = true) →
      (RetryWithBackoff (connRetryConfig base maxD factor) quietCtx op).calls = 3 ∧
      (RetryWithBackoff (connRetryConfig base maxD factor) quietCtx op).err
        = some (.maxRetriesExceeded 3 (op 2))) ∧
    (∀ (base maxD factor : Rat) (op : Nat → Option String) (e : String),
      op 0 = some e → isConnectionError (some e) = false →
      (RetryWithBackoff (connRetryConfig base maxD factor) quietCtx op).calls = 1 ∧
      (RetryWithBackoff (connRetryConfig base maxD factor) quietCtx op).err
        = some (.retryConditionNotMet e)) ∧
    (∀ (base maxD factor : Rat) (op : Nat → Option String) (k : Nat),
      k < 3 → op k = none →
      (∀ j, j < k → ∃ e, op j = some e ∧ isConnectionError (some e) = true) →
      (RetryWithBackoff (connRetryConfig base maxD factor) quietCtx op).calls = k + 1 ∧
      (RetryWithBackoff (connRetryConfig base maxD factor) quietCtx op).err = none) := by
  refine ⟨?_, ?_, ?_⟩
  · intro base maxD factor op h
    obtain ⟨e0, h0, r0⟩ := h 0
    obtain ⟨e1, h1, r1⟩ := h 1
    obtain ⟨e2, h2, r2⟩ := h 2
    rw [RetryWithBackoff]
    norm_num [connRetryConfig, retryAux, quietCtx, h0, h1, h2, r0, r1, r2]
  · intro base maxD factor op e h0 hnr
    rw [RetryWithBackoff]
    norm_num [connRetryConfig, retryAux, quietCtx, h0, hnr]
  · intro base maxD factor op k hk hsucc h
    interval_cases k
    · rw [RetryWithBackoff]
      norm_num [connRetryConfig, retryAux, quietCtx, hsucc]
    · obtain ⟨e0, h0, r0⟩ := h 0 (by omega)
      rw [RetryWithBackoff]
      norm_num [connRetryConfig, retryAux, quietCtx, hsucc, h0, r0]
    · obtain ⟨e0, h0, r0⟩ := h 0 (by omega)
      obtain ⟨e1, h1, r1⟩ := h 1 (by omega)
      rw [RetryWithBackoff]
      norm_num [connRetryConfig, retryAux, quietCtx, hsucc, h0, r0, h1, r1]

/-- C4 witness: an operation always failing with "connection reset by peer"
under the default delays is called exactly 3 times and the result is the
exhaustion error wrapping that failure. -/
theorem retry_execute_attempt_counts_witness :
    (RetryWithBackoff (connRetryConfig 10000000 500000000 2) quietCtx
        (fun _ => some "connection reset by peer")).calls = 3 ∧
    (RetryWithBackoff (connRetryConfig 10000000 500000000 2) quietCtx
        (fun _ => some "connection reset by peer")).err
      = some (.maxRetriesExceeded 3 (some "connection reset by peer")) :=
  retry_execute_attempt_counts.1 10000000 500000000 2
    (fun _ => some "connection reset by peer")
    (fun _ => ⟨"connection reset by peer", rfl, by decide⟩)

/-- C5: the sleep before every attempt after the first is exactly
`min(baseDelay * backoffFactor * attemptIndex, maxDelay)` for the 0-based
index of the upcoming attempt: the capped computation equals that `min`, the
completed sleeps of any run are exactly those values at indices `1..calls-1`,
and a cancellation firing during the sleep before attempt `k` makes the call
return a cancellation error at once, with no further invocation of the
operation. -/
theorem retry_backoff_schedule :
    (∀ (cfg : RetryConfig) (i : Nat),
      backoffDuration cfg i
        = min (cfg.baseDelay * cfg.backoffFactor * (i : Rat)) cfg.maxDelay) ∧
    (∀ (cfg : RetryConfig) (ctx : Ctx) (op : Nat → Option String),
      (RetryWithBackoff cfg ctx op).sleeps
        = (List.range' 1 ((RetryWithBackoff cfg ctx op).calls - 1)).map (backoffDuration cfg)) ∧
    (∀ (cfg : RetryConfig) (cond : String → Bool) (ctx : Ctx) (op : Nat → Option String)
        (k : Nat),
      cfg.retryCondition = some cond → 1 ≤ k → (k : Int) < cfg.maxRetries →
      ctx.cancelDuringSleep k = true →
      (∀ j, j < k → ctx.cancelDuringSleep j = false) →
      (∀ j, j < k → ∃ e, op j = some e ∧ cond e = true) →
      (RetryWithBackoff cfg ctx op).err = some (.retryCancelled ctx.errMsg) ∧
      (RetryWithBackoff cfg ctx op).calls = k) := by
  refine ⟨?_, RetryWithBackoff_sleeps_eq, ?_⟩
  · intro cfg i
    rw [backoffDuration, mul_assoc]
    rcases le_or_lt (cfg.baseDelay * (cfg.backoffFactor * (i : Rat))) cfg.maxDelay with h | h
    · rw [if_neg (not_lt.mpr h), min_eq_left h]
    · rw [if_pos h, min_eq_right h.le]
  · intro cfg cond ctx op k hc hk1 hkmax hk hprev hop
    rw [RetryWithBackoff]
    exact retryAux_cancel cfg ctx op cond hc k hk1 hk hprev hop k 0
      cfg.maxRetries.toNat none (by omega) (Int.lt_toNat.mpr hkmax)

/-- C5 witness: with the order-creation configuration, an always-failing
retryable operation and a context cancelled during the first backoff sleep,
the call returns the cancellation error after exactly one invocation, and the
capped backoff before attempt 1 is the minimum. -/
theorem retry_backoff_schedule_witness :
    backoffDuration (connRetryConfig 10000000 500000000 2) 1
        = min ((10000000 : Rat) * 2 * 1) 500000000 ∧
    (RetryWithBackoff (connRetryConfig 10000000 500000000 2) cancelAtOneCtx
        (fun _ => some "connection reset by peer")).err
      = some (.retryCancelled "context canceled") ∧
    (RetryWithBackoff (connRetryConfig 10000000 500000000 2) cancelAtOneCtx
        (fun _ => some "connection reset by peer")).calls = 1 := by
  refine ⟨retry_backoff_schedule.1 (connRetryConfig 10000000 500000000 2) 1, ?_⟩
  have h := retry_backoff_schedule.2.2 (connRetryConfig 10000000 500000000 2)
    (fun e => isConnectionError (some e)) cancelAtOneCtx
    (fun _ => some "connection reset by peer") 1 rfl (by decide) (by decide)
    (by decide) (by intro j hj; interval_cases j; decide)
    (by intro j hj; exact ⟨"connection reset by peer", rfl, by decide⟩)
  exact h

/-- C9: a zero-or-negative retry budget runs the loop zero times: the
operation is never invoked, no sleep happens, and the call still returns the
"max retries exceeded" error wrapping a nil (`none`) last error. -/
theorem retry_nonpositive_budget (cfg : RetryConfig) (ctx : Ctx)
    (op : Nat → Option String) (h : cfg.maxRetries ≤ 0) :
    RetryWithBackoff cfg ctx op
      = { err := some (.maxRetriesExceeded cfg.maxRetries none), calls := 0, sleeps := [] } := by
  rw [RetryWithBackoff, show cfg.maxRetries.toNat = 0 by omega, retryAux]

/-- C9 witness: with `MaxRetries = 0` the operation (which would succeed) is
never called and the exhaustion error is returned. -/
theorem retry_nonpositive_budget_witness :
    RetryWithBackoff ⟨0, 10000000, 500000000, 2, none⟩ quietCtx (fun _ => none)
      = { err := some (.maxRetriesExceeded 0 none), calls := 0, sleeps := [] } :=
  retry_nonpositive_budget ⟨0, 10000000, 500000000, 2, none⟩ quietCtx
    (fun _ => none) (by decide)

/-! ### Helper lemmas about entity creation and the transactional insert -/

lemma processItems_ok :
    ∀ (items : List OrderItem) (acc : Rat) (its : List OrderItem) (total : Rat),
      processItems acc items = .ok (its, total) →
      total = acc + (its.map (fun it => it.totalPrice)).sum ∧
      ∀ it ∈ its, it.totalPrice = (it.quantity : Rat) * it.unitPrice := by
  intro items
  induction items with
  | nil =>
    intro acc its total h
    rw [processItems] at h
    cases h
    simp
  | cons item rest ih =>
    intro acc its total h
    rw [processItems] at h
    split_ifs at h
    dsimp only at h
    cases hrec : processItems (acc + (item.quantity : Rat) * item.unitPrice) rest with
    | error e => rw [hrec] at h; cases h
    | ok p =>
      rw [hrec] at h
      cases h
      obtain ⟨hsum, hmem⟩ := ih _ _ _ hrec
      refine ⟨by rw [hsum]; simp; ring, ?_⟩
      intro it hit
      rcases List.mem_cons.mp hit with rfl | hit
      · rfl
      · exact hmem it hit

lemma processItems_ignores_totals (f : OrderItem → Rat) :
    ∀ (items : List OrderItem) (acc : Rat),
      processItems acc (items.map fun it => { it with totalPrice := f it })
        = processItems acc items := by
  intro items
  induction items with
  | nil => intro acc; rfl
  | cons item rest ih =>
    intro acc
    rw [List.map_cons, processItems, processItems]
    simp only
    split_ifs
    · rfl
    · rfl
    · rw [ih]

lemma insertItems_ok_of (env : TxEnv) (oid : Int) :
    ∀ (l : List OrderItem) (i0 : Nat),
      (∀ j, j < l.length → env.itemInsertOk (i0 + j) = true) →
      ∃ out, insertItems env oid l i0 = .ok out := by
  intro l
  induction l with
  | nil => intro i0 _; exact ⟨[], rfl⟩
  | cons item rest ih =>
    intro i0 h
    have h0 : env.itemInsertOk i0 = true := by simpa using h 0 (by simp)
    obtain ⟨out, hout⟩ := ih (i0 + 1) (fun j hj => by
      have := h (j + 1) (by simpa using Nat.succ_lt_succ hj)
      simpa [Nat.add_assoc, Nat.add_comm 1 j] using this)
    exact ⟨_, by rw [insertItems, h0, hout]; rfl⟩

lemma insertItems_error_of (env : TxEnv) (oid : Int) :
    ∀ (l : List OrderItem) (i0 : Nat),
      (∃ j, j < l.length ∧ env.itemInsertOk (i0 + j) = false) →
      ∃ e, insertItems env oid l i0 = .error e := by
  intro l
  induction l with
  | nil => rintro i0 ⟨j, hj, _⟩; simp at hj
  | cons item rest ih =>
    rintro i0 ⟨j, hj, hbad⟩
    rw [insertItems]
    cases h0 : env.itemInsertOk i0 with
    | false => exact ⟨_, rfl⟩
    | true =>
      have hj0 : j ≠ 0 := by rintro rfl; rw [Nat.add_zero] at hbad; rw [h0] at hbad; cases hbad
      obtain ⟨e, he⟩ := ih (i0 + 1) ⟨j - 1, by simp only [List.length_cons] at hj; omega, by
        have : i0 + 1 + (j - 1) = i0 + j := by omega
        rw [this]; exact hbad⟩
      rw [he]
      exact ⟨e, rfl⟩

lemma insertItems_ok_shape (env : TxEnv) (oid : Int) :
    ∀ (l : List OrderItem) (i0 : Nat) (out : List OrderItem),
      insertItems env oid l i0 = .ok out →
      out.map itemPayload = l.map itemPayload ∧
      out.map (fun it => it.orderId) = List.replicate l.length oid ∧
      out.map (fun it => it.id) = (List.range' i0 l.length).map env.genItemId := by
  intro l
  induction l with
  | nil =>
    intro i0 out h
    rw [insertItems] at h
    cases h
    simp
  | cons item rest ih =>
    intro i0 out h
    rw [insertItems] at h
    cases h0 : env.itemInsertOk i0 with
    | false => rw [h0] at h; cases h
    | true =>
      rw [h0] at h
      simp only [Bool.not_true, Bool.false_eq_true, if_false] at h
      cases hrec : insertItems env oid rest (i0 + 1) with
      | error e => rw [hrec] at h; cases h
      | ok others =>
        rw [hrec] at h
        cases h
        obtain ⟨hp, ho, hid⟩ := ih (i0 + 1) others hrec
        refine ⟨?_, ?_, ?_⟩
        · simp [itemPayload, hp]
        · simp [ho, List.replicate_succ]
        · simp [List.range'_succ, hid]

lemma payload_map_totalPrice {l₁ l₂ : List OrderItem}
    (h : l₁.map itemPayload = l₂.map itemPayload) :
    l₁.map (fun it => it.totalPrice) = l₂.map (fun it => it.totalPrice) := by
  have := congrArg (List.map (fun q : String × Int × Rat × Rat => q.2.2.2)) h
  simpa [List.map_map, Function.comp, itemPayload] using this

lemma create_ok_shape (env : TxEnv) (st : DBState) (o o' : Order)
    (h : (createOrderWithItemsInternal env st o).1 = .ok o') :
    o'.customerName = o.customerName ∧ o'.totalAmount = o.totalAmount ∧
    o'.status = o.status ∧ o'.createdAt = o.createdAt ∧ o'.updatedAt = o.updatedAt ∧
    o'.id = env.genOrderId ∧
    insertItems env env.genOrderId o.items 0 = .ok o'.items := by
  rw [createOrderWithItemsInternal] at h
  cases hb : env.beginOk with
  | false => rw [hb] at h; cases h
  | true =>
    rw [hb] at h
    cases ho : env.orderInsertOk with
    | false => rw [ho] at h; cases h
    | true =>
      rw [ho] at h
      simp only [Bool.not_true, Bool.false_eq_true, if_false] at h
      cases hins : insertItems env env.genOrderId o.items 0 with
      | error e => rw [hins] at h; cases h
      | ok out =>
        rw [hins] at h
        cases hc : env.commitOk with
        | false => rw [hc] at h; cases h
        | true =>
          rw [hc] at h
          simp only [Bool.not_true, Bool.false_eq_true, if_false] at h
          cases h
          exact ⟨rfl, rfl, rfl, rfl, rfl, rfl, rfl⟩

/-! ### Claim theorems about creation -/

/-- C1: any failure inside the transactional body of order creation
(begin, header insert, any single item insert, or commit) makes the attempt
return a non-nil error with the persisted state exactly as before: no header
row and no item row of the attempt remains. -/
theorem create_rolls_back_on_failure (env : TxEnv) (st : DBState) (order : Order)
    (h : env.beginOk = false ∨ env.orderInsertOk = false ∨
         (∃ i, i < order.items.length ∧ env.itemInsertOk i = false) ∨
         env.commitOk = false) :
    (∃ msg, (createOrderWithItemsInternal env st order).1 = .error msg) ∧
    (createOrderWithItemsInternal env st order).2 = st := by
  rw [createOrderWithItemsInternal]
  cases hb : env.beginOk with
  | false => exact ⟨⟨_, rfl⟩, rfl⟩
  | true =>
    cases ho : env.orderInsertOk with
    | false => exact ⟨⟨_, rfl⟩, rfl⟩
    | true =>
      simp only [Bool.not_true, Bool.false_eq_true, if_false]
      rcases h with h | h | h | h
      · rw [hb] at h; cases h
      · rw [ho] at h; cases h
      · obtain ⟨e, he⟩ := insertItems_error_of env env.genOrderId order.items 0
          (by obtain ⟨i, hi, hbad⟩ := h; exact ⟨i, hi, by simpa using hbad⟩)
        rw [he]
        exact ⟨⟨_, rfl⟩, rfl⟩
      · cases hins : insertItems env env.genOrderId order.items 0 with
        | error e => exact ⟨⟨_, rfl⟩, rfl⟩
        | ok out =>
          rw [h]
          exact ⟨⟨_, rfl⟩, rfl⟩

/-- C1 witness: with a commit failure, the attempt on an empty database
returns an error and the database stays empty. -/
theorem create_rolls_back_on_failure_witness :
    (∃ msg, (createOrderWithItemsInternal
        ⟨true, true, fun _ => true, false, 7, fun i => 100 + i⟩
        ⟨[], []⟩
        { id := 0, customerName := "John Doe", status := "pending",
          totalAmount := 2, items := [], createdAt := 5, updatedAt := 5 }).1
      = .error msg) ∧
    (createOrderWithItemsInternal
        ⟨true, true, fun _ => true, false, 7, fun i => 100 + i⟩
        ⟨[], []⟩
        { id := 0, customerName := "John Doe", status := "pending",
          totalAmount := 2, items := [], createdAt := 5, updatedAt := 5 }).2
      = ⟨[], []⟩ :=
  create_rolls_back_on_failure _ _ _ (Or.inr (Or.inr (Or.inr rfl)))

/-- C8: on a fully successful attempt the returned order carries exactly the
input's customer name, total amount, status, timestamps and item payloads
(product name, quantity, unit price, total price); the only additions are the
generated order id, the generated item ids, and each item's `OrderID` set to
the new order id. -/
theorem create_success_frame (env : TxEnv) (st : DBState) (order : Order)
    (hb : env.beginOk = true) (ho : env.orderInsertOk = true)
    (hi : ∀ i, i < order.items.length → env.itemInsertOk i = true)
    (hc : env.commitOk = true) :
    ∃ o', (createOrderWithItemsInternal env st order).1 = .ok o' ∧
      o'.customerName = order.customerName ∧
      o'.totalAmount = order.totalAmount ∧
      o'.status = order.status ∧
      o'.createdAt = order.createdAt ∧
      o'.updatedAt = order.updatedAt ∧
      o'.items.map itemPayload = order.items.map itemPayload ∧
      o'.id = env.genOrderId ∧
      o'.items.map (fun it => it.orderId)
        = List.replicate order.items.length env.genOrderId ∧
      o'.items.map (fun it => it.id)
        = (List.range' 0 order.items.length).map env.genItemId := by
  obtain ⟨out, hout⟩ := insertItems_ok_of env env.genOrderId order.items 0
    (fun j hj => by simpa using hi j hj)
  obtain ⟨hp, horder, hid⟩ := insertItems_ok_shape env env.genOrderId order.items 0 out hout
  refine ⟨{ id := env.genOrderId, customerName := order.customerName,
            status := order.status, totalAmount := order.totalAmount,
            items := out, createdAt := order.createdAt, updatedAt := order.updatedAt },
          ?_, rfl, rfl, rfl, rfl, rfl, hp, rfl, horder, hid⟩
  rw [createOrderWithItemsInternal]
  simp [hb, ho, hout, hc]

/-- C8 witness: creating a two-item order with all steps succeeding returns
the input payload with ids 7 (order) and 100, 101 (items) attached. -/
theorem create_success_frame_witness :
    ∃ o', (createOrderWithItemsInternal
        ⟨true, true, fun _ => true, true, 7, fun i => 100 + (i : Int)⟩
        ⟨[], []⟩
        { id := 0, customerName := "John Doe", status := "pending",
          totalAmount := 2,
          items := [{ id := 0, orderId := 0, productName := "Laptop",
                      quantity := 1, unitPrice := 2, totalPrice := 2 }],
          createdAt := 5, updatedAt := 5 }).1 = .ok o' ∧
      o'.customerName = "John Doe" ∧
      o'.totalAmount = 2 ∧
      o'.status = "pending" ∧
      o'.createdAt = 5 ∧
      o'.updatedAt = 5 ∧
      o'.items.map itemPayload = [("Laptop", 1, 2, 2)] ∧
      o'.id = 7 ∧
      o'.items.map (fun it => it.orderId) = [7] ∧
      o'.items.map (fun it => it.id) = [100] := by
  obtain ⟨o', h1, h2, h3, h4, h5, h6, h7, h8, h9, h10⟩ :=
    create_success_frame
      ⟨true, true, fun _ => true, true, 7, fun i => 100 + (i : Int)⟩
      ⟨[], []⟩
      { id := 0, customerName := "John Doe", status := "pending",
        totalAmount := 2,
        items := [{ id := 0, orderId := 0, productName := "Laptop",
                    quantity := 1, unitPrice := 2, totalPrice := 2 }],
        createdAt := 5, updatedAt := 5 }
      rfl rfl (fun _ _ => rfl) rfl
  exact ⟨o', h1, h2, h3, h4, h5, h6, by simpa [itemPayload] using h7, h8,
    by simpa using h9, by simpa using h10⟩

/-- C2: an order built by `entity.NewOrder` and persisted by a successful
`CreateOrderWithItems` attempt satisfies the totals invariant — every item's
total price is its quantity times its unit price and the order's total amount
is the sum of the item totals — and `NewOrder` is insensitive to any total
price the caller smuggles into the items, so caller-supplied totals are
ignored. -/
theorem creation_path_totals :
    (∀ (name : String) (items : List OrderItem) (now : Nat) (o o' : Order)
        (env : TxEnv) (st : DBState),
      NewOrder name items now = .ok o →
      (createOrderWithItemsInternal env st o).1 = .ok o' →
      (∀ it ∈ o'.items, it.totalPrice = (it.quantity : Rat) * it.unitPrice) ∧
      o'.totalAmount = (o'.items.map (fun it => it.totalPrice)).sum) ∧
    (∀ (name : String) (items : List OrderItem) (now : Nat) (f : OrderItem → Rat),
      NewOrder name (items.map fun it => { it with totalPrice := f it }) now
        = NewOrder name items now) := by
  constructor
  · intro name items now o o' env st hnew hcr
    have hshape := create_ok_shape env st o o' hcr
    have hitems : o.items.map itemPayload = o'.items.map itemPayload :=
      ((insertItems_ok_shape env env.genOrderId o.items 0 o'.items hshape.2.2.2.2.2.2).1).symm
    rw [NewOrder] at hnew
    split_ifs at hnew
    cases hpi : processItems 0 items with
    | error e => rw [hpi] at hnew; cases hnew
    | ok p =>
      rw [hpi] at hnew
      cases hnew
      obtain ⟨hsum, hmem⟩ := processItems_ok items 0 p.1 p.2 (by rw [hpi])
      constructor
      · intro it hit
        have hmm : itemPayload it ∈ o'.items.map itemPayload := List.mem_map_of_mem _ hit
        rw [← hitems] at hmm
        obtain ⟨it0, hit0, hpay⟩ := List.mem_map.mp hmm
        obtain ⟨hn, hq, hu, ht⟩ : it0.productName = it.productName ∧
            it0.quantity = it.quantity ∧ it0.unitPrice = it.unitPrice ∧
            it0.totalPrice = it.totalPrice := by
          simpa [itemPayload] using hpay
        rw [← hq, ← hu, ← ht]
        exact hmem it0 hit0
      · rw [hshape.2.1, ← payload_map_totalPrice hitems]
        simpa using hsum
  · intro name items now f
    rw [NewOrder, NewOrder, processItems_ignores_totals]
    simp

/-- C2 witness: the concrete two-item order of the spec scenario — quantities
1 and 2 at unit prices 99999/100 and 51/2 — persists with every item total
equal to quantity times unit price and the total amount equal to their sum,
and overwriting the caller-supplied totals does not change `NewOrder`. -/
theorem creation_path_totals_witness :
    (∀ it ∈
      ({ id := 7, customerName := "John Doe", status := "pending",
         totalAmount := 105099/100,
         items := [{ id := 100, orderId := 7, productName := "Laptop",
                     quantity := 1, unitPrice := 99999/100, totalPrice := 99999/100 },
                   { id := 101, orderId := 7, productName := "Mouse",
                     quantity := 2, unitPrice := 51/2, totalPrice := 51 }],
         createdAt := 5, updatedAt := 5 } : Order).items,
      it.totalPrice = (it.quantity : Rat) * it.unitPrice) := by
  have h := creation_path_totals.1 "John Doe"
    [{ id := 0, orderId := 0, productName := "Laptop",
       quantity := 1, unitPrice := 99999/100, totalPrice := 0 },
     { id := 0, orderId := 0, productName := "Mouse",
       quantity := 2, unitPrice := 51/2, totalPrice := 0 }] 5
    { id := 0, customerName := "John Doe", status := "pending",
      totalAmount := 105099/100,
      items := [{ id := 0, orderId := 0, productName := "Laptop",
                  quantity := 1, unitPrice := 99999/100, totalPrice := 99999/100 },
                { id := 0, orderId := 0, productName := "Mouse",
                  quantity := 2, unitPrice := 51/2, totalPrice := 51 }],
      createdAt := 5, updatedAt := 5 }
    { id := 7, customerName := "John Doe", status := "pending",
      totalAmount := 105099/100,
      items := [{ id := 100, orderId := 7, productName := "Laptop",
                  quantity := 1, unitPrice := 99999/100, totalPrice := 99999/100 },
                { id := 101, orderId := 7, productName := "Mouse",
                  quantity := 2, unitPrice := 51/2, totalPrice := 51 }],
      createdAt := 5, updatedAt := 5 }
    ⟨true, true, fun _ => true, true, 7, fun i => 100 + (i : Int)⟩
    ⟨[], []⟩
    (by norm_num [NewOrder, processItems]; exact fun h => absurd h (by decide))
    (by norm_num [createOrderWithItemsInternal, insertItems])
  exact h.1

/-- C6: `entity.NewOrder` initializes the status to "pending", and
`Order.UpdateStatus` succeeds exactly for the four enum values — setting the
status (and refreshing `UpdatedAt`) on success and returning the
"invalid order status" error with the order untouched on any other string. -/
theorem order_status_enum :
    (∀ (name : String) (items : List OrderItem) (now : Nat) (o : Order),
      NewOrder name items now = .ok o → o.status = "pending") ∧
    (∀ (o : Order) (s : String) (now : Nat),
      ((updateStatus o s now).1 = none ↔
        s = "pending" ∨ s = "processing" ∨ s = "completed" ∨ s = "cancelled") ∧
      ((updateStatus o s now).1 = none →
        (updateStatus o s now).2 = { o with status := s, updatedAt := now }) ∧
      ((updateStatus o s now).1 ≠ none →
        (updateStatus o s now).1 = some "invalid order status" ∧
        (updateStatus o s now).2 = o)) := by
  constructor
  · intro name items now o h
    rw [NewOrder] at h
    split_ifs at h
    cases hpi : processItems 0 items with
    | error e => rw [hpi] at h; cases h
    | ok p => rw [hpi] at h; cases h; rfl
  · intro o s now
    by_cases hv : isValidStatus s = true
    · have hs : s = "pending" ∨ s = "processing" ∨ s = "completed" ∨ s = "cancelled" := by
        simpa [isValidStatus, validStatuses, List.elem_iff] using hv
      refine ⟨by simp [updateStatus, hv, hs], by simp [updateStatus, hv], ?_⟩
      intro hne
      exact absurd (by simp [updateStatus, hv]) hne
    · have hs : ¬(s = "pending" ∨ s = "processing" ∨ s = "completed" ∨ s = "cancelled") := by
        simpa [isValidStatus, validStatuses, List.elem_iff] using hv
      simp only [Bool.not_eq_true] at hv
      refine ⟨by simp [updateStatus, hv, hs], by simp [updateStatus, hv], ?_⟩
      intro _
      simp [updateStatus, hv]

/-- C6 witness: a freshly created one-item order has status "pending";
updating it to "processing" succeeds and updating it to "shipped" fails
leaving it unchanged. -/
theorem order_status_enum_witness :
    (NewOrder "John Doe"
        [{ id := 0, orderId := 0, productName := "Laptop",
           quantity := 1, unitPrice := 2, totalPrice := 0 }] 5).map Order.status
      = .ok "pending" ∧
    (updateStatus
        { id := 7, customerName := "John Doe", status := "pending",
          totalAmount := 2, items := [], createdAt := 5, updatedAt := 5 }
        "processing" 9).1 = none ∧
    (updateStatus
        { id := 7, customerName := "John Doe", status := "pending",
          totalAmount := 2, items := [], createdAt := 5, updatedAt := 5 }
        "shipped" 9).2
      = { id := 7, customerName := "John Doe", status := "pending",
          totalAmount := 2, items := [], createdAt := 5, updatedAt := 5 } := by
  refine ⟨?_, ?_, ?_⟩
  · have h := order_status_enum.1 "John Doe"
      [{ id := 0, orderId := 0, productName := "Laptop",
         quantity := 1, unitPrice := 2, totalPrice := 0 }] 5
      { id := 0, customerName := "John Doe", status := "pending",
        totalAmount := 2,
        items := [{ id := 0, orderId := 0, productName := "Laptop",
                    quantity := 1, unitPrice := 2, totalPrice := 2 }],
        createdAt := 5, updatedAt := 5 }
      (by norm_num [NewOrder, processItems]; exact fun h => absurd h (by decide))
    rw [show (NewOrder "John Doe"
        [{ id := 0, orderId := 0, productName := "Laptop",
           quantity := 1, unitPrice := 2, totalPrice := 0 }] 5)
      = .ok { id := 0, customerName := "John Doe", status := "pending",
              totalAmount := 2,
              items := [{ id := 0, orderId := 0, productName := "Laptop",
                          quantity := 1, unitPrice := 2, totalPrice := 2 }],
              createdAt := 5, updatedAt := 5 } from by
        norm_num [NewOrder, processItems]
        exact fun hh => absurd hh (by decide)]
    exact congrArg Except.ok h
  · exact ((order_status_enum.2 _ "processing" 9).1).mpr (by simp)
  · exact ((order_status_enum.2 _ "shipped" 9).2.2 (by decide)).2

/-! ### Claim theorems about pagination arithmetic and the id guard -/

/-- C7: the page-based listing reports `totalPages = ceil(totalCount/limit)`
for any positive limit, except that an empty table reports one page rather
than zero. -/
theorem page_math_total_pages (page limit totalCount : Int)
    (hl : 1 ≤ limit) (hc : 0 ≤ totalCount) :
    (paginationInfoOf page limit totalCount).totalPages
      = if totalCount = 0 then 1 else ⌈(totalCount : Rat) / (limit : Rat)⌉ := by
  rw [paginationInfoOf]
  dsimp only
  by_cases h0 : totalCount = 0
  · subst h0
    have ht : Int.tdiv (0 + limit - 1) limit = (limit - 1) / limit := by
      rw [show (0 : Int) + limit - 1 = limit - 1 by ring]
      exact Int.tdiv_eq_ediv (by omega) (by omega)
    rw [ht, Int.ediv_eq_zero_of_lt (by omega) (by omega)]
    simp
  · have hc1 : 1 ≤ totalCount := by omega
    have hta : Int.tdiv (totalCount + limit - 1) limit
        = (totalCount + limit - 1) / limit :=
      Int.tdiv_eq_ediv (by omega) (by omega)
    have key := Int.ediv_add_emod (totalCount + limit - 1) limit
    have hr0 := Int.emod_nonneg (totalCount + limit - 1) (by omega : limit ≠ 0)
    have hrlt := Int.emod_lt_of_pos (totalCount + limit - 1) (by omega : (0:Int) < limit)
    have h1 : totalCount ≤ ((totalCount + limit - 1) / limit) * limit := by nlinarith
    have h2 : (((totalCount + limit - 1) / limit) - 1) * limit < totalCount := by nlinarith
    have hq0 : ¬ (totalCount + limit - 1) / limit = 0 := by
      intro h
      rw [h] at h1
      simp at h1
      omega
    rw [hta, if_neg hq0, if_neg h0]
    symm
    rw [Int.ceil_eq_iff]
    have hlq : (0 : Rat) < (limit : Rat) := by exact_mod_cast (by omega : (0:Int) < limit)
    constructor
    · rw [show (((totalCount + limit - 1) / limit : Int) : Rat) - 1
          = (((totalCount + limit - 1) / limit - 1 : Int) : Rat) by push_cast; ring]
      rw [lt_div_iff₀ hlq]
      exact_mod_cast h2
    · rw [div_le_iff₀ hlq]
      exact_mod_cast h1

/-- C7 witness: 95 rows at 10 per page give 10 pages; an empty table gives 1
page. -/
theorem page_math_total_pages_witness :
    (paginationInfoOf 1 10 95).totalPages = 10 ∧
    (paginationInfoOf 3 10 0).totalPages = 1 := by
  constructor
  · have h := page_math_total_pages 1 10 95 (by decide) (by decide)
    rw [h, if_neg (by decide)]
    rw [show ((95 : Int) : Rat) / ((10 : Int) : Rat) = (19 : Rat) / 2 by norm_num]
    rw [Int.ceil_eq_iff]
    norm_num
  · have h := page_math_total_pages 3 10 0 (by decide) (by decide)
    rw [h, if_pos rfl]

/-- C10: `GetOrderUseCase.Execute` rejects every non-positive id with the
invalid-operation error without calling the repository, and calls the
repository exactly once, passing its result through, for every positive id. -/
theorem get_order_id_guard (repo : Int → Except AppError Order) (id : Int) :
    (id ≤ 0 → getOrderExecute repo id
        = (.error (.invalidOperation "order ID must be greater than 0"), 0)) ∧
    (1 ≤ id → (getOrderExecute repo id).2 = 1 ∧
      (getOrderExecute repo id).1 = repo id) := by
  constructor
  · intro h
    rw [getOrderExecute, if_pos h]
  · intro h
    rw [getOrderExecute, if_neg (by omega)]
    exact ⟨rfl, rfl⟩

/-- C10 witness: a repository that always reports not-found is never
consulted for id 0 and is consulted exactly once for id 1. -/
theorem get_order_id_guard_witness :
    getOrderExecute (fun _ => .error (.repoError "order not found")) 0
        = (.error (.invalidOperation "order ID must be greater than 0"), 0) ∧
    (getOrderExecute (fun _ => .error (.repoError "order not found")) 1).2 = 1 ∧
    (getOrderExecute (fun _ => .error (.repoError "order not found")) 1).1
        = .error (.repoError "order not found") :=
  ⟨(get_order_id_guard (fun _ => .error (.repoError "order not found")) 0).1 (by decide),
   (get_order_id_guard (fun _ => .error (.repoError "order not found")) 1).2 (by decide)⟩

/-! ### Helper lemmas about the key order and the cursor listing -/

lemma keyLtb_irrefl (a : Nat × Int) : keyLtb a a = false := by
  simp [keyLtb]

lemma keyLtb_asymm {a b : Nat × Int} (h : keyLtb a b = true) : keyLtb b a = false := by
  rcases a with ⟨a1, a2⟩
  rcases b with ⟨b1, b2⟩
  simp [keyLtb] at h ⊢
  omega

lemma keyLtb_trans {a b c : Nat × Int} (h1 : keyLtb a b = true)
    (h2 : keyLtb b c = true) : keyLtb a c = true := by
  rcases a with ⟨a1, a2⟩
  rcases b with ⟨b1, b2⟩
  rcases c with ⟨c1, c2⟩
  simp [keyLtb] at h1 h2 ⊢
  omega

lemma keyLtb_false_total {a b : Nat × Int} (h : keyLtb a b = false)
    (hne : a ≠ b) : keyLtb b a = true := by
  rcases a with ⟨a1, a2⟩
  rcases b with ⟨b1, b2⟩
  simp [keyLtb, Prod.ext_iff] at h hne ⊢
  omega

instance : IsTotal OrderHeaderRow rowGe := by
  constructor
  intro a b
  unfold rowGe
  by_cases h : keyLtb (rowKey a) (rowKey b) = true
  · right
    exact keyLtb_asymm h
  · left
    exact Bool.eq_false_iff.mpr h

instance : IsTrans OrderHeaderRow rowGe := by
  constructor
  intro a b c h1 h2
  unfold rowGe at h1 h2 ⊢
  rcases ha : rowKey a with ⟨a1, a2⟩
  rcases hb : rowKey b with ⟨b1, b2⟩
  rcases hc : rowKey c with ⟨c1, c2⟩
  rw [ha, hb] at h1
  rw [hb, hc] at h2
  simp [keyLtb] at h1 h2 ⊢
  omega

lemma sortDesc_sorted (table : List OrderHeaderRow) :
    (sortDesc table).Sorted rowGe :=
  List.sorted_insertionSort rowGe table

lemma sortDesc_perm (table : List OrderHeaderRow) : List.Perm (sortDesc table) table :=
  List.perm_insertionSort rowGe table

lemma sortDesc_strict (table : List OrderHeaderRow)
    (h : (table.map rowKey).Nodup) : (sortDesc table).Pairwise rowGt := by
  have hs : (sortDesc table).Pairwise rowGe := sortDesc_sorted table
  have hkeys : ((sortDesc table).map rowKey).Nodup :=
    ((sortDesc_perm table).map rowKey).nodup_iff.mpr h
  have hne : (sortDesc table).Pairwise (fun a b => rowKey a ≠ rowKey b) :=
    List.pairwise_map.mp hkeys
  exact hs.imp₂ (fun a b hge hnk => keyLtb_false_total hge hnk) hne

lemma remainingRows_subset (table : List OrderHeaderRow) (cursor : Option Cursor) :
    ∀ a ∈ remainingRows table cursor, a ∈ table := by
  intro a ha
  have : a ∈ sortDesc table := by
    cases cursor with
    | none => exact ha
    | some c => exact List.mem_of_mem_filter ha
  exact (sortDesc_perm table).mem_iff.mp this

lemma remainingRows_pairwise (table : List OrderHeaderRow) (cursor : Option Cursor)
    (h : (table.map rowKey).Nodup) :
    (remainingRows table cursor).Pairwise rowGt := by
  cases cursor with
  | none => exact sortDesc_strict table h
  | some c => exact (sortDesc_strict table h).filter _

lemma chain_all_not_lt_last :
    ∀ (p : List OrderHeaderRow), p.Pairwise rowGt → ∀ (hne : p ≠ []),
      ∀ a ∈ p, keyLtb (rowKey a) (rowKey (p.getLast hne)) = false := by
  intro p
  induction p with
  | nil => intro _ hne; cases hne rfl
  | cons x rest ih =>
    intro hp hne a ha
    cases rest with
    | nil =>
      have hax : a = x := by simpa using ha
      subst hax
      exact keyLtb_irrefl _
    | cons y t =>
      have hne2 : y :: t ≠ [] := by simp
      rw [List.getLast_cons hne2]
      rcases List.mem_cons.mp ha with rfl | ha2
      · exact keyLtb_asymm ((List.pairwise_cons.mp hp).1 _ (List.getLast_mem hne2))
      · exact ih (List.pairwise_cons.mp hp).2 hne2 a ha2

lemma filter_below_key (l : List OrderHeaderRow) (hl : l.Pairwise rowGt)
    (limit : Nat) (hne : l.take limit ≠ []) (k : Nat × Int)
    (hk : k = rowKey ((l.take limit).getLast hne)) :
    l.filter (fun r => keyLtb (rowKey r) k) = l.drop limit := by
  have hpair : (l.take limit ++ l.drop limit).Pairwise rowGt := by
    rw [List.take_append_drop]
    exact hl
  obtain ⟨hp1, hp2, hcross⟩ := List.pairwise_append.mp hpair
  have h1 : (l.take limit).filter (fun r => keyLtb (rowKey r) k) = [] := by
    rw [List.filter_eq_nil_iff]
    intro a ha
    rw [hk, chain_all_not_lt_last (l.take limit) hp1 hne a ha]
    simp
  have h2 : (l.drop limit).filter (fun r => keyLtb (rowKey r) k) = l.drop limit := by
    rw [List.filter_eq_self]
    intro b hb
    rw [hk]
    exact hcross _ (List.getLast_mem hne) b hb
  calc l.filter (fun r => keyLtb (rowKey r) k)
      = (l.take limit ++ l.drop limit).filter (fun r => keyLtb (rowKey r) k) := by
        rw [List.take_append_drop]
    _ = l.drop limit := by rw [List.filter_append, h1, h2, List.nil_append]

lemma filter_absorb (p1 p2 : OrderHeaderRow → Bool) (l : List OrderHeaderRow)
    (h : ∀ a, p1 a = true → p2 a = true) :
    (l.filter p2).filter p1 = l.filter p1 := by
  rw [List.filter_filter]
  apply List.filter_congr
  intro a _
  cases hp : p1 a
  · simp
  · simp [h a hp]

lemma listOrders_eq (table : List OrderHeaderRow) (limit : Nat)
    (cursor : Option Cursor) :
    listOrdersCursor table limit cursor
      = ((remainingRows table cursor).take limit,
         match ((remainingRows table cursor).take limit).getLast? with
         | none => none
         | some lastRow => some (formatCursor lastRow)) := by
  cases cursor <;> rfl

lemma cursorWalk_succ (table : List OrderHeaderRow) (limit fuel : Nat)
    (cursor : Option Cursor) :
    cursorWalk table limit (fuel + 1) cursor
      = (if ((remainingRows table cursor).take limit).isEmpty then []
         else
           match ((remainingRows table cursor).take limit).getLast? with
           | none => (remainingRows table cursor).take limit
           | some lastRow =>
               (remainingRows table cursor).take limit
                 ++ cursorWalk table limit fuel (some (formatCursor lastRow))) := by
  rw [cursorWalk, listOrders_eq]
  cases hg : ((remainingRows table cursor).take limit).getLast? <;> simp [hg]

lemma cursorWalk_covers (table : List OrderHeaderRow) (limit : Nat)
    (hlim : 1 ≤ limit)
    (hsec : ∀ r ∈ table, r.createdAt % 1000000 = 0)
    (hkeys : (table.map rowKey).Nodup) :
    ∀ (fuel : Nat) (cursor : Option Cursor),
      (remainingRows table cursor).length ≤ fuel →
      cursorWalk table limit fuel cursor = remainingRows table cursor := by
  intro fuel
  induction fuel with
  | zero =>
    intro cursor h
    have h0 : remainingRows table cursor = [] :=
      List.eq_nil_of_length_eq_zero (by omega)
    rw [h0, cursorWalk]
  | succ fuel ih =>
    intro cursor hlen
    rw [cursorWalk_succ]
    by_cases hm : remainingRows table cursor = []
    · simp [hm]
    · have hpage : (remainingRows table cursor).take limit ≠ [] := by
        rw [Ne, List.take_eq_nil_iff]
        rintro (h | h)
        · omega
        · exact hm h
      rw [List.getLast?_eq_getLast _ hpage]
      have hlastmem : ((remainingRows table cursor).take limit).getLast hpage ∈ table :=
        remainingRows_subset table cursor _
          (List.take_subset _ _ (List.getLast_mem hpage))
      have hpf : parseCursor (formatCursor
            (((remainingRows table cursor).take limit).getLast hpage))
          = rowKey (((remainingRows table cursor).take limit).getLast hpage) := by
        rw [parseCursor, formatCursor, rowKey]
        have hdvd : 1000000 ∣
            (((remainingRows table cursor).take limit).getLast hpage).createdAt :=
          Nat.dvd_of_mod_eq_zero (hsec _ hlastmem)
        rw [Nat.div_mul_cancel hdvd]
      have hchainm : (remainingRows table cursor).Pairwise rowGt :=
        remainingRows_pairwise table cursor hkeys
      have hrem : remainingRows table
            (some (formatCursor (((remainingRows table cursor).take limit).getLast hpage)))
          = (remainingRows table cursor).drop limit := by
        rw [show remainingRows table
              (some (formatCursor (((remainingRows table cursor).take limit).getLast hpage)))
            = (sortDesc table).filter (fun r => keyLtb (rowKey r) (parseCursor
                (formatCursor (((remainingRows table cursor).take limit).getLast hpage))))
          from rfl]
        rw [show (fun r => keyLtb (rowKey r) (parseCursor
              (formatCursor (((remainingRows table cursor).take limit).getLast hpage))))
            = (fun r => keyLtb (rowKey r) (rowKey
              (((remainingRows table cursor).take limit).getLast hpage)))
          from funext fun r => by rw [hpf]]
        cases cursor with
        | none =>
          exact filter_below_key (sortDesc table) (sortDesc_strict table hkeys)
            limit hpage _ rfl
        | some c =>
          have hmem2 : ((remainingRows table (some c)).take limit).getLast hpage
              ∈ (sortDesc table).filter (fun r => keyLtb (rowKey r) (parseCursor c)) := by
            have h0 : ((remainingRows table (some c)).take limit).getLast hpage
                ∈ remainingRows table (some c) :=
              List.take_subset _ _ (List.getLast_mem hpage)
            simpa [remainingRows] using h0
          have hlast2 := List.of_mem_filter hmem2
          exact ((filter_absorb
              (fun r => keyLtb (rowKey r)
                (rowKey (((remainingRows table (some c)).take limit).getLast hpage)))
              (fun r => keyLtb (rowKey r) (parseCursor c))
              (sortDesc table)
              (fun a ha => keyLtb_trans ha hlast2)).symm).trans
            (filter_below_key _ hchainm limit hpage _ rfl)
      have hlen2 : (remainingRows table
            (some (formatCursor (((remainingRows table cursor).take limit).getLast hpage)))).length
          ≤ fuel := by
        rw [hrem, List.length_drop]
        have hpos : 0 < (remainingRows table cursor).length := List.length_pos.mpr hm
        omega
      rw [show ((remainingRows table cursor).take limit).isEmpty = false by
        simpa [List.isEmpty_iff] using hpage]
      simp only [Bool.false_eq_true, if_false]
      rw [ih _ hlen2, hrem, List.take_append_drop]

/-! ### Claim theorems about cursor pagination -/

/-- C3 counterexample: with two persisted orders created 1.4s and 1.5s after
the epoch (same wall-clock second, distinct ids) and limit 1, the cursor walk
returns only one of the two orders: the RFC3339 `nextCursor` truncates the
sub-second part of `created_at`, so the parsed cursor tuple does not
round-trip to the last row's `(created_at, id)` tuple and the second row is
skipped. -/
theorem cursor_pagination_counterexample :
    (List.map (fun r => r.id) subsecTable).Nodup ∧
    subsecRowB ∈ subsecTable ∧
    subsecRowB ∉ cursorWalk subsecTable 1 5 none ∧
    (cursorWalk subsecTable 1 5 none).length = 1 ∧
    subsecTable.length = 2 ∧
    parseCursor (formatCursor subsecRowA) ≠ rowKey subsecRowA := by
  decide

/-- C3 amended: on a snapshot whose `created_at` values are whole seconds
(so the RFC3339 cursor encoding is lossless) and whose ids are distinct, the
cursor walk with any limit of at least 1 and enough round trips yields
exactly the persisted orders — no duplicates, no omissions — in strictly
descending `(created_at, id)` order, and each parsed `nextCursor` selects
exactly the rows strictly below the last returned row's tuple. -/
theorem cursor_pagination_complete (table : List OrderHeaderRow)
    (limit fuel : Nat) (hlim : 1 ≤ limit)
    (hsec : ∀ r ∈ table, r.createdAt % 1000000 = 0)
    (hids : (table.map (fun r => r.id)).Nodup)
    (hfuel : table.length ≤ fuel) :
    (cursorWalk table limit fuel none).Perm table ∧
    (cursorWalk table limit fuel none).Pairwise rowGt ∧
    (∀ r ∈ table, parseCursor (formatCursor r) = rowKey r) ∧
    (∀ r ∈ table, ∀ lim : Nat,
      (listOrdersCursor table lim (some (formatCursor r))).1
        = ((sortDesc table).filter
            (fun x => keyLtb (rowKey x) (rowKey r))).take lim) := by
  have hkeys : (table.map rowKey).Nodup := by
    have : ((table.map rowKey).map Prod.snd).Nodup := by
      rw [List.map_map]
      exact hids
    exact this.of_map
  have hpf : ∀ r ∈ table, parseCursor (formatCursor r) = rowKey r := by
    intro r hr
    rw [parseCursor, formatCursor, rowKey]
    rw [Nat.div_mul_cancel (Nat.dvd_of_mod_eq_zero (hsec r hr))]
  have hwalk : cursorWalk table limit fuel none = sortDesc table := by
    have := cursorWalk_covers table limit hlim hsec hkeys fuel none
      (by simpa [remainingRows, (sortDesc_perm table).length_eq] using hfuel)
    simpa [remainingRows] using this
  refine ⟨?_, ?_, hpf, ?_⟩
  · rw [hwalk]
    exact sortDesc_perm table
  · rw [hwalk]
    exact sortDesc_strict table hkeys
  · intro r hr lim
    rw [listOrders_eq]
    rw [show remainingRows table (some (formatCursor r))
        = (sortDesc table).filter (fun x => keyLtb (rowKey x) (parseCursor (formatCursor r)))
      from rfl]
    rw [show (fun x => keyLtb (rowKey x) (parseCursor (formatCursor r)))
        = (fun x => keyLtb (rowKey x) (rowKey r)) from funext fun x => by rw [hpf r hr]]

/-- C3 amended witness: a five-row whole-second snapshot with ties on
`created_at`, walked with limit 2, is enumerated completely in strictly
descending key order. -/
theorem cursor_pagination_complete_witness :
    (cursorWalk
        [{ id := 1, customerName := "x", totalAmount := 1, status := "pending",
           createdAt := 1000000, updatedAt := 1000000 },
         { id := 2, customerName := "x", totalAmount := 1, status := "pending",
           createdAt := 1000000, updatedAt := 1000000 },
         { id := 3, customerName := "x", totalAmount := 1, status := "pending",
           createdAt := 3000000, updatedAt := 3000000 },
         { id := 4, customerName := "x", totalAmount := 1, status := "pending",
           createdAt := 2000000, updatedAt := 2000000 },
         { id := 5, customerName := "x", totalAmount := 1, status := "pending",
           createdAt := 2000000, updatedAt := 2000000 }] 2 5 none).Perm
      [{ id := 1, customerName := "x", totalAmount := 1, status := "pending",
         createdAt := 1000000, updatedAt := 1000000 },
       { id := 2, customerName := "x", totalAmount := 1, status := "pending",
         createdAt := 1000000, updatedAt := 1000000 },
       { id := 3, customerName := "x", totalAmount := 1, status := "pending",
         createdAt := 3000000, updatedAt := 3000000 },
       { id := 4, customerName := "x", totalAmount := 1, status := "pending",
         createdAt := 2000000, updatedAt := 2000000 },
       { id := 5, customerName := "x", totalAmount := 1, status := "pending",
         createdAt := 2000000, updatedAt := 2000000 }] ∧
    (cursorWalk
        [{ id := 1, customerName := "x", totalAmount := 1, status := "pending",
           createdAt := 1000000, updatedAt := 1000000 },
         { id := 2, customerName := "x", totalAmount := 1, status := "pending",
           createdAt := 1000000, updatedAt := 1000000 },
         { id := 3, customerName := "x", totalAmount := 1, status := "pending",
           createdAt := 3000000, updatedAt := 3000000 },
         { id := 4, customerName := "x", totalAmount := 1, status := "pending",
           createdAt := 2000000, updatedAt := 2000000 },
         { id := 5, customerName := "x", totalAmount := 1, status := "pending",
           createdAt := 2000000, updatedAt := 2000000 }] 2 5 none).Pairwise rowGt := by
  have h := cursor_pagination_complete
    [{ id := 1, customerName := "x", totalAmount := 1, status := "pending",
       createdAt := 1000000, updatedAt := 1000000 },
     { id := 2, customerName := "x", totalAmount := 1, status := "pending",
       createdAt := 1000000, updatedAt := 1000000 },
     { id := 3, customerName := "x", totalAmount := 1, status := "pending",
       createdAt := 3000000, updatedAt := 3000000 },
     { id := 4, customerName := "x", totalAmount := 1, status := "pending",
       createdAt := 2000000, updatedAt := 2000000 },
     { id := 5, customerName := "x", totalAmount := 1, status := "pending",
       createdAt := 2000000, updatedAt := 2000000 }] 2 5
    (by decide) (by decide) (by decide) (by decide)
  exact ⟨h.1, h.2.1⟩

end OrderSys
